import Mathlib

/-!
Verification of the SemanTest capability / contract domain model
(`src/domain/semantic-automation/semantest-capability.entity.ts` and the
contract entity in the same module).

The TypeScript entities are shallowly embedded as Lean structures and pure
functions.  JavaScript records (`Record<string, T>`) are modelled as
insertion-ordered association lists with string keys (own enumerable
properties; key order is insertion order, as `Object.entries` yields it).
JavaScript `Date` values are modelled by their millisecond timestamp
(`Int`); `toISOString` / `new Date(iso)` are mutually inverse on in-range
dates, so the ISO string is modelled by the timestamp it denotes.  Calls to
`new Date()` (current time) are modelled by an explicit `now : Int`
parameter.
-/

set_option linter.unusedVariables false

/-- Apostrophe character as a one-character string, used by the
error-message templates of the source (e.g. `Required parameter 'x' is
missing`). -/
def apos : String := String.singleton (Char.ofNat 39)

/-- Runtime JavaScript values that can appear in a `Record<string, any>`
argument mapping.  Objects and arrays carry a numeric reference identity:
`===` (and hence `Array.includes`) compares objects and arrays by
reference, so two objects are equal exactly when their references
coincide.  Array elements and object fields are never inspected by the
validation code, so they are not carried. -/
inductive JSValue where
  | str (s : String)
  | num (n : Int)
  | bool (b : Bool)
  | null
  | undef
  | obj (ref : Nat)
  | arr (ref : Nat)
deriving DecidableEq, Repr

/-- Result of the JavaScript `typeof` operator on a `JSValue`
(`typeof null` is `"object"`, `typeof` of an array is `"object"`). -/
def JSValue.typeofStr : JSValue → String
  | .str _ => "string"
  | .num _ => "number"
  | .bool _ => "boolean"
  | .null => "object"
  | .undef => "undefined"
  | .obj _ => "object"
  | .arr _ => "object"

/-- JavaScript `Array.isArray`. -/
def JSValue.isArray : JSValue → Bool
  | .arr _ => true
  | _ => false

/-- JavaScript `String(v)` coercion, used only inside the enum error
message (`enum.join(', ')`).  Arrays are rendered as an empty string since
their elements are not carried by the model. -/
def JSValue.jsToString : JSValue → String
  | .str s => s
  | .num n => toString n
  | .bool b => if b then "true" else "false"
  | .null => "null"
  | .undef => "undefined"
  | .obj _ => "[object Object]"
  | .arr _ => ""

/-- Parameter data types (`ParameterType` in
`semantest-contract.entity.ts`). -/
inductive ParameterType where
  | string
  | number
  | boolean
  | object
  | array
  | file
deriving DecidableEq, Repr

/-- Literal name of a `ParameterType`, as it appears in the TypeScript
union type and in error messages. -/
def ParameterType.toStr : ParameterType → String
  | .string => "string"
  | .number => "number"
  | .boolean => "boolean"
  | .object => "object"
  | .array => "array"
  | .file => "file"

/-- Parameter validation rules (`ParameterValidation`).  The source field
`pattern` is named `patt` here; it holds the regular-expression source
string. -/
structure ParameterValidation where
  minLength : Option Nat := none
  maxLength : Option Nat := none
  patt : Option String := none
  minimum : Option Int := none
  maximum : Option Int := none
  enum : Option (List JSValue) := none
deriving DecidableEq, Repr

/-- Parameter definition (`ParameterDefinition`). -/
structure ParameterDefinition where
  name : String
  type : ParameterType
  description : Option String := none
  required : Option Bool := none
  default : Option JSValue := none
  validation : Option ParameterValidation := none
  examples : Option (List JSValue) := none
deriving DecidableEq, Repr

/-- Truthiness of an optional boolean field (`undefined` is falsy). -/
def jsTruthy : Option Bool → Bool
  | some b => b
  | none => false

/-- Boolean test that `needle` occurs as a contiguous sublist of the
second argument. -/
def subOccurs (needle : List Char) : List Char → Bool
  | [] => needle.isEmpty
  | a :: rest => needle.isPrefixOf (a :: rest) || subOccurs needle rest

/-- JavaScript `hay.includes(needle)` on strings: substring containment. -/
def jsIncludes (hay needle : String) : Bool :=
  subOccurs needle.toList hay.toList

/-- Model of `new RegExp(p).test(s)`.  The validation code only ever uses
the regular expression built from a parameter's `pattern` string; the
model treats the pattern as a literal and tests for an (unanchored)
occurrence in `s`, which agrees with `RegExp.test` on metacharacter-free
patterns. -/
def jsRegexTest (p s : String) : Bool :=
  jsIncludes s p

/-- Key membership in an argument record (`name in parameters` for a plain
record, own keys). -/
def hasKey (args : List (String × JSValue)) (n : String) : Bool :=
  args.any (fun kv => kv.fst == n)

/-- Message `Required parameter '` ++ name ++ `' is missing`, split so that
its fixed head `missingPre` can be used as a recognizer. -/
def missingPre : String := "Required parameter " ++ apos

/-- Fixed head `Parameter '` shared by every error message emitted for a
provided argument. -/
def parmPre : String := "Parameter " ++ apos

/-- Error for a required parameter absent from the argument mapping. -/
def missingMsg (n : String) : String :=
  missingPre ++ (n ++ (apos ++ " is missing"))

/-- Error for a type mismatch, citing expected and actual kinds. -/
def typeMsg (n expected actual : String) : String :=
  parmPre ++ (n ++ (apos ++ (" expected " ++ (expected ++ (", got " ++ actual)))))

/-- Error for a string shorter than `minLength`. -/
def minLengthMsg (n : String) (k : Nat) : String :=
  parmPre ++ (n ++ (apos ++ (" must be at least " ++ (toString k ++ " characters"))))

/-- Error for a string longer than `maxLength`. -/
def maxLengthMsg (n : String) (k : Nat) : String :=
  parmPre ++ (n ++ (apos ++ (" must be at most " ++ (toString k ++ " characters"))))

/-- Error for a string not matching the declared pattern. -/
def patternMsg (n : String) : String :=
  parmPre ++ (n ++ (apos ++ " does not match required pattern"))

/-- Error for a number below the declared `minimum`. -/
def minimumMsg (n : String) (m : Int) : String :=
  parmPre ++ (n ++ (apos ++ (" must be at least " ++ toString m)))

/-- Error for a number above the declared `maximum`. -/
def maximumMsg (n : String) (m : Int) : String :=
  parmPre ++ (n ++ (apos ++ (" must be at most " ++ toString m)))

/-- Error for a value outside the declared `enum`. -/
def enumMsg (n : String) (es : List JSValue) : String :=
  parmPre ++ (n ++ (apos ++ (" must be one of: " ++
    String.intercalate ", " (es.map JSValue.jsToString))))

/-- Warning for an argument with no matching parameter definition. -/
def unknownParamMsg (n : String) : String :=
  "Unknown parameter " ++ (apos ++ (n ++ (apos ++ " provided")))

/-- Wait types (`WaitType`). -/
inductive WaitType where
  | visible
  | present
  | hidden
  | enabled
  | text
  | custom
deriving DecidableEq, Repr

/-- Wait condition (`WaitCondition`). -/
structure WaitCondition where
  type : WaitType
  timeout : Option Int := none
  text : Option String := none
  customCondition : Option String := none
deriving DecidableEq, Repr

/-- Selector record with fallback strategies (`SelectorDefinition`). -/
structure SelectorDefinition where
  primary : String
  fallback : Option (List String) := none
  wait : Option WaitCondition := none
  validator : Option String := none
  frame : Option String := none
  shadowRoot : Option Bool := none
deriving DecidableEq, Repr

/-- Selector of a capability: either a bare selector string or a
`SelectorDefinition` record (`string | SelectorDefinition`). -/
inductive CapSelector where
  | plain (s : String)
  | defn (d : SelectorDefinition)
deriving DecidableEq, Repr

/-- Condition types (`ConditionType`). -/
inductive ConditionType where
  | element
  | url
  | text
  | custom
deriving DecidableEq, Repr

/-- Execution condition (`ExecutionCondition`). -/
structure ExecutionCondition where
  type : ConditionType
  selector : Option String := none
  urlPattern : Option String := none
  text : Option String := none
  customCondition : Option String := none
  negate : Option Bool := none
deriving DecidableEq, Repr

/-- Capability example (`CapabilityExample`). -/
structure CapabilityExample where
  description : String
  parameters : List (String × JSValue)
  expectedResult : Option JSValue := none
  executionTime : Option Int := none
deriving DecidableEq, Repr

/-- Return type of a capability (`ReturnTypeDefinition.type`, i.e.
`ParameterType | 'void'`). -/
inductive RetType where
  | param (p : ParameterType)
  | void
deriving DecidableEq, Repr

/-- Return type definition (`ReturnTypeDefinition`); the `schema` object
is carried as an opaque-by-reference `JSValue`. -/
structure ReturnTypeDefinition where
  type : RetType
  description : Option String := none
  schema : Option JSValue := none
  examples : Option (List JSValue) := none
deriving DecidableEq, Repr

/-- Validation rules of a capability (`ValidationRules`). -/
structure ValidationRules where
  elementExists : Option Bool := none
  elementVisible : Option Bool := none
  elementEnabled : Option Bool := none
  customValidator : Option String := none
deriving DecidableEq, Repr

/-- Capability types (`CapabilityType`). -/
inductive CapabilityType where
  | action
  | query
  | navigation
  | form
  | file
  | wait
  | validation
deriving DecidableEq, Repr

/-- Validation report of a capability (`CapabilityValidationResult`). -/
structure CapabilityValidationResult where
  valid : Bool
  errors : List String
  warnings : List String
  timestamp : Int
deriving DecidableEq, Repr

/-- Result of `validateParameters` (`{valid, errors, warnings}`). -/
structure ParamValidationOutcome where
  valid : Bool
  errors : List String
  warnings : List String
deriving DecidableEq, Repr

/-- Capability entity properties (`SemanTestCapabilityProps`); the entity
class is a read-only wrapper around them, so the entity is modelled by the
record itself. -/
structure SemanTestCapability where
  id : String
  name : String
  type : CapabilityType
  description : String
  selector : CapSelector
  parameters : Option (List ParameterDefinition) := none
  returnType : Option ReturnTypeDefinition := none
  validation : Option ValidationRules := none
  timeout : Option Int := none
  retries : Option Int := none
  conditions : Option (List ExecutionCondition) := none
  examples : Option (List CapabilityExample) := none
  createdAt : Int
  updatedAt : Int
deriving DecidableEq, Repr

/-- Accessor `getPrimarySelector()`. -/
def SemanTestCapability.getPrimarySelector (c : SemanTestCapability) : String :=
  match c.selector with
  | .plain s => s
  | .defn d => d.primary

/-- Accessor `getFallbackSelectors()` (`selector.fallback || []`). -/
def SemanTestCapability.getFallbackSelectors (c : SemanTestCapability) : List String :=
  match c.selector with
  | .plain _ => []
  | .defn d => d.fallback.getD []

/-- Accessor `getParameters()` (`this.get('parameters') || []`). -/
def SemanTestCapability.getParameters (c : SemanTestCapability) : List ParameterDefinition :=
  c.parameters.getD []

/-- Accessor `getRequiredParameters()` (parameters whose `required` field
is truthy). -/
def SemanTestCapability.getRequiredParameters (c : SemanTestCapability) : List ParameterDefinition :=
  c.getParameters.filter (fun p => jsTruthy p.required)

/-- Accessor `getParameter(name)` (first parameter definition with the
given name). -/
def SemanTestCapability.getParameter (c : SemanTestCapability) (n : String) : Option ParameterDefinition :=
  c.getParameters.find? (fun p => p.name == n)

/-- Accessor `getConditions()` (`this.get('conditions') || []`). -/
def SemanTestCapability.getConditions (c : SemanTestCapability) : List ExecutionCondition :=
  c.conditions.getD []

/-- Accessor `getExamples()` (`this.get('examples') || []`). -/
def SemanTestCapability.getExamples (c : SemanTestCapability) : List CapabilityExample :=
  c.examples.getD []

/-- Errors of the required-parameter loop of `validateParameters`
(source lines 370-375): one `missingMsg` per required parameter whose name
is not a key of the argument mapping, in declaration order. -/
def requiredParamErrors (c : SemanTestCapability) (args : List (String × JSValue)) : List String :=
  (c.getRequiredParameters.filter (fun p => ! hasKey args p.name)).map
    (fun p => missingMsg p.name)

/-- Type-check errors for one provided argument (source lines 386-394):
`array` requires `Array.isArray`; any other declared type requires the
`typeof` kind of the value to equal the declared type name exactly. -/
def entryTypeErrors (pd : ParameterDefinition) (paramName : String) (v : JSValue) : List String :=
  if pd.type == ParameterType.array && ! v.isArray then
    [typeMsg paramName (ParameterType.toStr pd.type) v.typeofStr]
  else if pd.type != ParameterType.array && v.typeofStr != ParameterType.toStr pd.type then
    [typeMsg paramName (ParameterType.toStr pd.type) v.typeofStr]
  else []

/-- String-constraint errors (source lines 400-410).  Each bound is
applied only when the stored value is truthy (`validation.minLength &&
...`), so a bound of `0` or an empty pattern string is skipped. -/
def strConstraintErrors (val : ParameterValidation) (paramName s : String) : List String :=
  (match val.minLength with
   | some k => if k != 0 && s.length < k then [minLengthMsg paramName k] else []
   | none => []) ++
  (match val.maxLength with
   | some k => if k != 0 && s.length > k then [maxLengthMsg paramName k] else []
   | none => []) ++
  (match val.patt with
   | some p => if p != "" && ! jsRegexTest p s then [patternMsg paramName] else []
   | none => [])

/-- Numeric-constraint errors (source lines 412-419).  The bounds are
guarded by an explicit `!== undefined` test, so a bound of `0` is
enforced. -/
def numConstraintErrors (val : ParameterValidation) (paramName : String) (x : Int) : List String :=
  (match val.minimum with
   | some m => if x < m then [minimumMsg paramName m] else []
   | none => []) ++
  (match val.maximum with
   | some m => if x > m then [maximumMsg paramName m] else []
   | none => [])

/-- Enum-constraint error (source lines 421-423); arrays are always truthy
in JavaScript, so the check runs whenever `enum` is present. -/
def enumConstraintErrors (val : ParameterValidation) (paramName : String) (v : JSValue) : List String :=
  match val.enum with
  | some es => if ! es.contains v then [enumMsg paramName es] else []
  | none => []

/-- Constraint errors for one provided argument (source lines 397-424),
run only when the parameter has a `validation` block. -/
def constraintErrors (pd : ParameterDefinition) (paramName : String) (v : JSValue) : List String :=
  match pd.validation with
  | none => []
  | some val =>
    (match v with
     | JSValue.str s => strConstraintErrors val paramName s
     | _ => []) ++
    (match v with
     | JSValue.num x => numConstraintErrors val paramName x
     | _ => []) ++
    enumConstraintErrors val paramName v

/-- Errors of the provided-argument loop of `validateParameters` (source
lines 378-425): for each argument entry in order, the type check followed
by the constraint checks; arguments without a matching parameter
definition are skipped (they only produce a warning). -/
def providedParamErrors (c : SemanTestCapability) : List (String × JSValue) → List String
  | [] => []
  | (paramName, v) :: rest =>
    (match c.getParameter paramName with
     | none => []
     | some pd => entryTypeErrors pd paramName v ++ constraintErrors pd paramName v) ++
    providedParamErrors c rest

/-- Warnings of the provided-argument loop: one `unknownParamMsg` per
argument entry with no matching parameter definition. -/
def providedParamWarnings (c : SemanTestCapability) : List (String × JSValue) → List String
  | [] => []
  | (paramName, _) :: rest =>
    (match c.getParameter paramName with
     | none => [unknownParamMsg paramName]
     | some _ => []) ++
    providedParamWarnings c rest

/-- Method `validateParameters(parameters)` (source lines 362-432):
required-parameter errors, then per-argument type and constraint errors;
valid iff no error was collected. -/
def SemanTestCapability.validateParameters (c : SemanTestCapability)
    (args : List (String × JSValue)) : ParamValidationOutcome :=
  let errors := requiredParamErrors c args ++ providedParamErrors c args
  { valid := errors.length == 0
    errors := errors
    warnings := providedParamWarnings c args }

/-- Heuristic selector check `isValidCSSSelector` (source lines 516-525):
non-blank after trimming and free of the literal substrings `><` and
`<<`. -/
def isValidCSSSelector (s : String) : Bool :=
  s.trim.length > 0 && ! jsIncludes s "><" && ! jsIncludes s "<<"

/-- Warning for a fallback selector failing the heuristic CSS check. -/
def fallbackWarnMsg (s : String) : String :=
  "Fallback selector " ++ (apos ++ (s ++ (apos ++ " may not be valid CSS")))

/-- Error for a duplicate parameter name in a capability definition. -/
def dupParamMsg (n : String) : String :=
  "Duplicate parameter name: " ++ n

/-- Warning for an example without a description (1-based index). -/
def exampleDescWarnMsg (idx : Nat) : String :=
  "Example " ++ (toString idx ++ " is missing description")

/-- Error aggregating one example's invalid parameters (1-based index,
errors joined with `, `). -/
def exampleErrMsg (idx : Nat) (errs : List String) : String :=
  "Example " ++ (toString idx ++ (": " ++ String.intercalate ", " errs))

/-- Errors of the parameter-definition loop of `validate()` (source lines
476-490), carrying the set of names seen so far.  The source also checks
`!param.type`, but `type` is a non-optional `ParameterType`, so that
branch cannot fire in the typed model. -/
def paramDefErrors : List ParameterDefinition → List String → List String
  | [], _ => []
  | p :: rest, seen =>
    (if seen.contains p.name then [dupParamMsg p.name] else []) ++
    (if p.name == "" then ["Parameter name is required"] else []) ++
    paramDefErrors rest (p.name :: seen)

/-- Errors of the example loop of `validate()` (source lines 493-503):
each example's parameters are run through `validateParameters` and any
errors are folded in under the example's 1-based index. -/
def exampleErrors (c : SemanTestCapability) : Nat → List CapabilityExample → List String
  | _, [] => []
  | i, ex :: rest =>
    let pv := c.validateParameters ex.parameters
    (if pv.valid then [] else [exampleErrMsg (i + 1) pv.errors]) ++
    exampleErrors c (i + 1) rest

/-- Warnings of the example loop: a missing-description warning per
example with a falsy (empty) description. -/
def exampleWarnings : Nat → List CapabilityExample → List String
  | _, [] => []
  | i, ex :: rest =>
    (if ex.description == "" then [exampleDescWarnMsg (i + 1)] else []) ++
    exampleWarnings (i + 1) rest

/-- Warnings of the selector try-block of `validate()` (source lines
459-473); `isValidCSSSelector` cannot throw, so the catch branch is
unreachable. -/
def selectorWarnings (c : SemanTestCapability) : List String :=
  (if c.getPrimarySelector != "" && ! isValidCSSSelector c.getPrimarySelector then
    ["Primary selector may not be valid CSS"]
  else []) ++
  (c.getFallbackSelectors.filterMap (fun s =>
    if ! isValidCSSSelector s then some (fallbackWarnMsg s) else none))

/-- Method `SemanTestCapability.validate()` (source lines 437-511):
structural field errors, parameter-definition errors, then example
errors; warnings from the selector heuristic and the example
descriptions. -/
def SemanTestCapability.validate (c : SemanTestCapability) (now : Int) : CapabilityValidationResult :=
  let errors :=
    (if c.id == "" then ["Capability ID is required"] else []) ++
    (if c.name == "" then ["Capability name is required"] else []) ++
    (if c.description == "" then ["Capability description is required"] else []) ++
    (if c.getPrimarySelector == "" then ["Primary selector is required"] else []) ++
    paramDefErrors c.getParameters [] ++
    exampleErrors c 0 c.getExamples
  { valid := errors.length == 0
    errors := errors
    warnings := selectorWarnings c ++ exampleWarnings 0 c.getExamples
    timestamp := now }

/-- Plain serialized form produced by `SemanTestCapability.toJSON()`
(source lines 530-547).  Optional fields hold `none` when the serialized
record would carry `undefined`; the two `Date` fields are carried as the
timestamp their ISO-8601 string denotes (`toISOString` and
`new Date(iso)` are mutually inverse). -/
structure CapabilityJSON where
  id : String
  name : String
  type : CapabilityType
  description : String
  selector : CapSelector
  parameters : Option (List ParameterDefinition)
  returnType : Option ReturnTypeDefinition
  validation : Option ValidationRules
  timeout : Option Int
  retries : Option Int
  conditions : Option (List ExecutionCondition)
  examples : Option (List CapabilityExample)
  createdAt : Int
  updatedAt : Int
deriving DecidableEq, Repr

/-- Method `toJSON()` (source lines 530-547).  Note that `parameters`,
`conditions` and `examples` go through the `getX()` accessors, which
replace an absent field by `[]`. -/
def SemanTestCapability.toJSON (c : SemanTestCapability) : CapabilityJSON :=
  { id := c.id
    name := c.name
    type := c.type
    description := c.description
    selector := c.selector
    parameters := some c.getParameters
    returnType := c.returnType
    validation := c.validation
    timeout := c.timeout
    retries := c.retries
    conditions := some c.getConditions
    examples := some c.getExamples
    createdAt := c.createdAt
    updatedAt := c.updatedAt }

/-- Static method `fromJSON(json)` (source lines 552-569): every field is
copied through; the date strings are parsed back with `new Date`. -/
def SemanTestCapability.fromJSON (j : CapabilityJSON) : SemanTestCapability :=
  { id := j.id
    name := j.name
    type := j.type
    description := j.description
    selector := j.selector
    parameters := j.parameters
    returnType := j.returnType
    validation := j.validation
    timeout := j.timeout
    retries := j.retries
    conditions := j.conditions
    examples := j.examples
    createdAt := j.createdAt
    updatedAt := j.updatedAt }

/-- Retry configuration (`RetryConfiguration`). -/
structure RetryConfiguration where
  attempts : Int
  delay : Int
deriving DecidableEq, Repr

/-- Error handling strategies (`ErrorStrategy`). -/
inductive ErrorStrategy where
  | abort
  | continue
  | retry
  | fallback
deriving DecidableEq, Repr

/-- Error handling block of a workflow (`ErrorHandling`). -/
structure ErrorHandling where
  strategy : ErrorStrategy
  maxRetries : Option Int := none
  fallbackCapability : Option String := none
deriving DecidableEq, Repr

/-- Individual workflow step (`WorkflowStep`). -/
structure WorkflowStep where
  capability : String
  parameters : Option (List (String × JSValue)) := none
  condition : Option ExecutionCondition := none
  onSuccess : Option String := none
  onFailure : Option String := none
  retry : Option RetryConfiguration := none
deriving DecidableEq, Repr

/-- Workflow definition (`WorkflowDefinition`). -/
structure WorkflowDefinition where
  description : String
  parameters : Option (List ParameterDefinition) := none
  steps : List WorkflowStep
  errorHandling : Option ErrorHandling := none
deriving DecidableEq, Repr

/-- Validation report of a contract (`ValidationResult`). -/
structure ValidationResult where
  valid : Bool
  errors : List String
  warnings : List String
  timestamp : Int
deriving DecidableEq, Repr

/-- Contract metadata (`ContractMetadata`). -/
structure ContractMetadata where
  author : Option String := none
  tags : Option (List String) := none
  compatibilityScore : Option Int := none
  validationResults : Option (List ValidationResult) := none
deriving DecidableEq, Repr

/-- Contract entity properties (`SemanTestContractProps`); the entity
class is a read-only wrapper around them, so the entity is modelled by
the record itself. -/
structure SemanTestContract where
  id : String
  version : String
  domain : String
  title : String
  description : Option String := none
  capabilities : List (String × SemanTestCapability)
  workflows : Option (List (String × WorkflowDefinition)) := none
  metadata : Option ContractMetadata := none
  createdAt : Int
  updatedAt : Int
deriving DecidableEq, Repr

/-- Assignment `record[key] = value` on a plain JavaScript object: an
existing key keeps its position and gets the new value, a fresh key is
appended at the end. -/
def recordSet (m : List (String × α)) (k : String) (v : α) : List (String × α) :=
  if m.any (fun kv => kv.fst == k) then
    m.map (fun kv => if kv.fst == k then (k, v) else kv)
  else
    m ++ [(k, v)]

/-- Deletion `delete record[key]` on a plain JavaScript object. -/
def recordDelete (m : List (String × α)) (k : String) : List (String × α) :=
  m.filter (fun kv => kv.fst != k)

/-- Method `hasCapability(name)` (`name in this.get('capabilities')`). -/
def SemanTestContract.hasCapability (c : SemanTestContract) (n : String) : Bool :=
  c.capabilities.any (fun kv => kv.fst == n)

/-- Method `getCapability(name)`. -/
def SemanTestContract.getCapability (c : SemanTestContract) (n : String) : Option SemanTestCapability :=
  (c.capabilities.find? (fun kv => kv.fst == n)).map (fun kv => kv.snd)

/-- Method `withCapability(name, capability)` (source lines 863-872): the
capability map is copied and updated, `updatedAt` is refreshed, all other
fields are spread from `this.props`. -/
def SemanTestContract.withCapability (c : SemanTestContract) (n : String)
    (cap : SemanTestCapability) (now : Int) : SemanTestContract :=
  { c with capabilities := recordSet c.capabilities n cap, updatedAt := now }

/-- Method `withoutCapability(name)` (source lines 877-886). -/
def SemanTestContract.withoutCapability (c : SemanTestContract) (n : String)
    (now : Int) : SemanTestContract :=
  { c with capabilities := recordDelete c.capabilities n, updatedAt := now }

/-- Method `withMetadata(metadata)` (source lines 891-897). -/
def SemanTestContract.withMetadata (c : SemanTestContract) (meta : ContractMetadata)
    (now : Int) : SemanTestContract :=
  { c with metadata := some meta, updatedAt := now }

/-- Method `withWorkflow(name, workflow)` (source lines 902-911); the
spread `{...this.get('workflows')}` of an absent map yields `{}`, so the
result always holds a present map. -/
def SemanTestContract.withWorkflow (c : SemanTestContract) (n : String)
    (wf : WorkflowDefinition) (now : Int) : SemanTestContract :=
  { c with workflows := some (recordSet (c.workflows.getD []) n wf), updatedAt := now }

/-- Error folding one capability's validation errors into the contract
report (`Capability '<name>': <errors joined with comma>`). -/
def capErrMsg (n : String) (errs : List String) : String :=
  "Capability " ++ (apos ++ (n ++ (apos ++ (": " ++ String.intercalate ", " errs))))

/-- Warning folding one capability's validation warnings into the
contract report. -/
def capWarnMsg (n : String) (ws : List String) : String :=
  "Capability " ++ (apos ++ (n ++ (apos ++ (": " ++ String.intercalate ", " ws))))

/-- Error for a workflow step referencing a capability name absent from
the capability map (`Workflow '<w>' references unknown capability
'<c>'`). -/
def danglingMsg (wname capname : String) : String :=
  "Workflow " ++ (apos ++ (wname ++ (apos ++ (" references unknown capability " ++
    (apos ++ (capname ++ apos))))))

/-- Errors of the per-capability loop of `SemanTestContract.validate()`
(source lines 944-956), in the run where no capability validation throws
(the pure model; the exception path is modelled separately below). -/
def capabilityAggErrors (now : Int) : List (String × SemanTestCapability) → List String
  | [] => []
  | (n, cap) :: rest =>
    let v := cap.validate now
    (if v.valid then [] else [capErrMsg n v.errors]) ++ capabilityAggErrors now rest

/-- Warnings of the per-capability loop of `SemanTestContract.validate()`:
a capability with a non-empty warning list contributes one folded
warning. -/
def capabilityAggWarnings (now : Int) : List (String × SemanTestCapability) → List String
  | [] => []
  | (n, cap) :: rest =>
    let v := cap.validate now
    (if v.warnings.length > 0 then [capWarnMsg n v.warnings] else []) ++
    capabilityAggWarnings now rest

/-- Errors of the step loop for one workflow (source lines 962-966). -/
def stepRefErrors (c : SemanTestContract) (wname : String) : List WorkflowStep → List String
  | [] => []
  | s :: rest =>
    (if c.hasCapability s.capability then [] else [danglingMsg wname s.capability]) ++
    stepRefErrors c wname rest

/-- Errors of the workflow loop of `SemanTestContract.validate()`
(source lines 959-968). -/
def workflowRefErrors (c : SemanTestContract) : List (String × WorkflowDefinition) → List String
  | [] => []
  | (wname, wf) :: rest =>
    stepRefErrors c wname wf.steps ++ workflowRefErrors c rest

/-- Method `SemanTestContract.validate()` (source lines 916-976):
structural field errors, folded per-capability errors, then workflow
reference errors; valid iff no error was collected. -/
def SemanTestContract.validate (c : SemanTestContract) (now : Int) : ValidationResult :=
  let errors :=
    (if c.id == "" then ["Contract ID is required"] else []) ++
    (if c.version == "" then ["Contract version is required"] else []) ++
    (if c.domain == "" then ["Contract domain is required"] else []) ++
    (if c.title == "" then ["Contract title is required"] else []) ++
    capabilityAggErrors now c.capabilities ++
    (match c.workflows with
     | some ws => workflowRefErrors c ws
     | none => [])
  { valid := errors.length == 0
    errors := errors
    warnings :=
      (if c.capabilities.length == 0 then ["Contract has no capabilities defined"] else []) ++
      capabilityAggWarnings now c.capabilities
    timestamp := now }

/-- Host regular-expression engine: `compile p` models `new RegExp(p)`,
which either throws a `SyntaxError` (whose `.message` is the carried
string) or yields a matcher whose application models `.test`.  The
exception-aware variants of the validation functions below are
parameterized by an engine so that the try/catch placement of the source
can be analysed for every host behavior. -/
structure RegexEngine where
  compile : String → Except String (String → Bool)

/-- Engine on which `new RegExp` never throws (patterns are treated as
literals, as in `jsRegexTest`). -/
def totalEngine : RegexEngine :=
  { compile := fun p => Except.ok (fun s => jsRegexTest p s) }

/-- Engine reproducing the V8 behavior on the syntactically invalid
pattern `(`: `new RegExp("(")` throws
`SyntaxError: Invalid regular expression: /(/: Unterminated group`. -/
def brokenEngine : RegexEngine :=
  { compile := fun p =>
      if p == "(" then
        Except.error "Invalid regular expression: /(/: Unterminated group"
      else Except.ok (fun s => jsRegexTest p s) }

/-- Exception-aware variant of `strConstraintErrors`: building the
regular expression from a truthy `pattern` can throw. -/
def strConstraintErrorsE (eng : RegexEngine) (val : ParameterValidation)
    (paramName s : String) : Except String (List String) := do
  let patErrs ←
    match val.patt with
    | some p =>
      if p != "" then do
        let t ← eng.compile p
        pure (if ! t s then [patternMsg paramName] else [])
      else pure []
    | none => pure []
  pure (
    (match val.minLength with
     | some k => if k != 0 && s.length < k then [minLengthMsg paramName k] else []
     | none => []) ++
    (match val.maxLength with
     | some k => if k != 0 && s.length > k then [maxLengthMsg paramName k] else []
     | none => []) ++
    patErrs)

/-- Exception-aware variant of `constraintErrors`. -/
def constraintErrorsE (eng : RegexEngine) (pd : ParameterDefinition)
    (paramName : String) (v : JSValue) : Except String (List String) :=
  match pd.validation with
  | none => pure []
  | some val => do
    let strErrs ←
      match v with
      | JSValue.str s => strConstraintErrorsE eng val paramName s
      | _ => pure []
    pure (strErrs ++
      (match v with
       | JSValue.num x => numConstraintErrors val paramName x
       | _ => []) ++
      enumConstraintErrors val paramName v)

/-- Exception-aware variant of `providedParamErrors`. -/
def providedParamErrorsE (eng : RegexEngine) (c : SemanTestCapability) :
    List (String × JSValue) → Except String (List String)
  | [] => pure []
  | (paramName, v) :: rest => do
    let head ←
      match c.getParameter paramName with
      | none => pure []
      | some pd => do
        let ce ← constraintErrorsE eng pd paramName v
        pure (entryTypeErrors pd paramName v ++ ce)
    let tail ← providedParamErrorsE eng c rest
    pure (head ++ tail)

/-- Exception-aware variant of `validateParameters`: the method itself
installs no exception handler, so a `SyntaxError` raised while compiling
a parameter's pattern propagates to the caller. -/
def validateParametersE (eng : RegexEngine) (c : SemanTestCapability)
    (args : List (String × JSValue)) : Except String ParamValidationOutcome := do
  let provided ← providedParamErrorsE eng c args
  let errors := requiredParamErrors c args ++ provided
  pure { valid := errors.length == 0
         errors := errors
         warnings := providedParamWarnings c args }

/-- Exception-aware variant of the example loop of
`SemanTestCapability.validate()` (source lines 493-503): the loop body
contains no try/catch, so an exception raised while checking one example
aborts the whole loop. -/
def exampleErrorsE (eng : RegexEngine) (c : SemanTestCapability) :
    Nat → List CapabilityExample → Except String (List String)
  | _, [] => pure []
  | i, ex :: rest => do
    let pv ← validateParametersE eng c ex.parameters
    let tail ← exampleErrorsE eng c (i + 1) rest
    pure ((if pv.valid then [] else [exampleErrMsg (i + 1) pv.errors]) ++ tail)

/-- Exception-aware variant of `SemanTestCapability.validate()`: the only
try/catch in the method wraps the selector syntax checks (source lines
459-473), which cannot throw; exceptions from the example loop
propagate. -/
def SemanTestCapability.validateE (eng : RegexEngine) (c : SemanTestCapability)
    (now : Int) : Except String CapabilityValidationResult := do
  let exErrs ← exampleErrorsE eng c 0 c.getExamples
  let errors :=
    (if c.id == "" then ["Capability ID is required"] else []) ++
    (if c.name == "" then ["Capability name is required"] else []) ++
    (if c.description == "" then ["Capability description is required"] else []) ++
    (if c.getPrimarySelector == "" then ["Primary selector is required"] else []) ++
    paramDefErrors c.getParameters [] ++
    exErrs
  pure { valid := errors.length == 0
         errors := errors
         warnings := selectorWarnings c ++ exampleWarnings 0 c.getExamples
         timestamp := now }

/-- Error message the per-capability catch of
`SemanTestContract.validate()` pushes for a thrown exception
(`Capability '<name>': <error.message>`, source line 954). -/
def capCaughtMsg (n msg : String) : String :=
  "Capability " ++ (apos ++ (n ++ (apos ++ (": " ++ msg))))

/-- Exception-aware per-capability loop of `SemanTestContract.validate()`
(source lines 944-956): the body is wrapped in try/catch, so a throwing
`capability.validate()` contributes `capCaughtMsg` instead of aborting
the loop. -/
def capabilityAggE (eng : RegexEngine) (now : Int) :
    List (String × SemanTestCapability) → Except String (List String × List String)
  | [] => pure ([], [])
  | (n, cap) :: rest => do
    let (es, ws) ←
      tryCatch
        (do
          let v ← SemanTestCapability.validateE eng cap now
          pure ((if v.valid then [] else [capErrMsg n v.errors]),
                (if v.warnings.length > 0 then [capWarnMsg n v.warnings] else [])))
        (fun msg => pure ([capCaughtMsg n msg], []))
    let (es2, ws2) ← capabilityAggE eng now rest
    pure (es ++ es2, ws ++ ws2)

/-- Exception-aware variant of `SemanTestContract.validate()`: every call
that can throw happens inside the per-capability try/catch, so the method
always returns a structured report. -/
def SemanTestContract.validateE (eng : RegexEngine) (c : SemanTestContract)
    (now : Int) : Except String ValidationResult := do
  let (capErrs, capWarns) ← capabilityAggE eng now c.capabilities
  let errors :=
    (if c.id == "" then ["Contract ID is required"] else []) ++
    (if c.version == "" then ["Contract version is required"] else []) ++
    (if c.domain == "" then ["Contract domain is required"] else []) ++
    (if c.title == "" then ["Contract title is required"] else []) ++
    capErrs ++
    (match c.workflows with
     | some ws => workflowRefErrors c ws
     | none => [])
  pure { valid := errors.length == 0
         errors := errors
         warnings :=
           (if c.capabilities.length == 0 then ["Contract has no capabilities defined"] else []) ++
           capWarns
         timestamp := now }

/-- Capability of the concrete login scenario (spec section 8): type
`action`, selector `#submit`, one required string parameter `user`.  The
identity fields are filled with non-empty values, as required for the
scenario's validity. -/
def loginCapability : SemanTestCapability :=
  { id := "login-cap"
    name := "login"
    type := CapabilityType.action
    description := "Submit the login form"
    selector := CapSelector.plain "#submit"
    parameters := some [{ name := "user", type := ParameterType.string, required := some true }]
    createdAt := 0
    updatedAt := 0 }

/-- Workflow `signIn` whose single step invokes capability `login`. -/
def signInWorkflow : WorkflowDefinition :=
  { description := "Sign in", steps := [{ capability := "login" }] }

/-- Contract of the concrete login scenario. -/
def loginContract : SemanTestContract :=
  { id := "c1"
    version := "1.0"
    domain := "example.com"
    title := "Login"
    capabilities := [("login", loginCapability)]
    workflows := some [("signIn", signInWorkflow)]
    createdAt := 0
    updatedAt := 0 }

/-- Workflow step referencing the absent capability `logout`. -/
def logoutStep : WorkflowStep := { capability := "logout" }

/-- Workflow `signIn` mutated to invoke the absent capability `logout`. -/
def logoutWorkflow : WorkflowDefinition :=
  { description := "Sign in", steps := [logoutStep] }

/-- Login contract with the workflow step changed to the absent
capability `logout`. -/
def logoutContract : SemanTestContract :=
  { loginContract with workflows := some [("signIn", logoutWorkflow)] }

/-- Parameter whose validation block declares the syntactically invalid
regular expression `(`. -/
def patternParam : ParameterDefinition :=
  { name := "user"
    type := ParameterType.string
    validation := some { patt := some "(" } }

/-- Capability whose example provides a string for `patternParam`, so that
checking the example compiles the invalid regular expression. -/
def badExampleCapability : SemanTestCapability :=
  { id := "bad-cap"
    name := "bad"
    type := CapabilityType.action
    description := "Example triggers RegExp compilation"
    selector := CapSelector.plain "#x"
    parameters := some [patternParam]
    examples := some [{ description := "ex", parameters := [("user", JSValue.str "a")] }]
    createdAt := 0
    updatedAt := 0 }

/-- Contract holding `badExampleCapability` under the name `bad`. -/
def badExampleContract : SemanTestContract :=
  { id := "cbad"
    version := "1.0"
    domain := "example.com"
    title := "Bad"
    capabilities := [("bad", badExampleCapability)]
    createdAt := 0
    updatedAt := 0 }

/-- Capability with every optional field absent, used to exhibit the
round-trip normalization of `parameters` / `conditions` / `examples`. -/
def bareCapability : SemanTestCapability :=
  { id := "cap-1"
    name := "cap"
    type := CapabilityType.query
    description := "No optional fields"
    selector := CapSelector.plain "#y"
    createdAt := 0
    updatedAt := 0 }

/-- Recognizer for errors of the missing-required-parameter form: the
message starts with `Required parameter '`. -/
def isMissingErr (e : String) : Bool := missingPre.data.isPrefixOf e.data

/-- Every list is a boolean prefix of itself extended on the right. -/
lemma isPrefixOf_self_append (l m : List Char) : l.isPrefixOf (l ++ m) = true := by
  induction l with
  | nil => simp [List.isPrefixOf]
  | cons a t ih => simp [List.isPrefixOf, ih]

/-- Messages built by `missingMsg` are recognized by `isMissingErr`. -/
lemma isMissingErr_missingMsg (n : String) : isMissingErr (missingMsg n) = true := by
  unfold isMissingErr missingMsg
  rw [String.data_append]
  exact isPrefixOf_self_append _ _

lemma parmPre_split : parmPre = "P" ++ ("arameter " ++ apos) := by decide

lemma missingPre_head : missingPre.data = 'R' :: ("equired parameter " ++ apos).data := by decide

/-- Messages starting with `Parameter '` are never recognized by
`isMissingErr` (their first characters differ). -/
lemma isMissingErr_parm (r : String) : isMissingErr (parmPre ++ r) = false := by
  unfold isMissingErr
  rw [parmPre_split, String.append_assoc, String.data_append, missingPre_head]
  rw [show ("P" : String).data = ['P'] from rfl]
  simp [List.isPrefixOf]

/-- Type-mismatch errors are not of the missing-parameter form. -/
lemma not_missing_entryTypeErrors (pd : ParameterDefinition) (n : String) (v : JSValue) :
    ∀ e ∈ entryTypeErrors pd n v, isMissingErr e = false := by
  intro e he
  unfold entryTypeErrors at he
  split at he
  · simp at he
    subst he
    simpa [typeMsg] using isMissingErr_parm _
  · split at he
    · simp at he
      subst he
      simpa [typeMsg] using isMissingErr_parm _
    · cases he

/-- String-constraint errors are not of the missing-parameter form. -/
lemma not_missing_strConstraintErrors (val : ParameterValidation) (n s : String) :
    ∀ e ∈ strConstraintErrors val n s, isMissingErr e = false := by
  intro e he
  unfold strConstraintErrors at he
  rcases List.mem_append.mp he with h1 | h1
  · rcases List.mem_append.mp h1 with h2 | h2
    · split at h2 <;> first
      | cases h2
      | (split at h2
         · simp at h2
           subst h2
           simpa [minLengthMsg] using isMissingErr_parm _
         · cases h2)
    · split at h2 <;> first
      | cases h2
      | (split at h2
         · simp at h2
           subst h2
           simpa [maxLengthMsg] using isMissingErr_parm _
         · cases h2)
  · split at h1 <;> first
    | cases h1
    | (split at h1
       · simp at h1
         subst h1
         simpa [patternMsg] using isMissingErr_parm _
       · cases h1)

/-- Numeric-constraint errors are not of the missing-parameter form. -/
lemma not_missing_numConstraintErrors (val : ParameterValidation) (n : String) (x : Int) :
    ∀ e ∈ numConstraintErrors val n x, isMissingErr e = false := by
  intro e he
  unfold numConstraintErrors at he
  rcases List.mem_append.mp he with h1 | h1 <;> split at h1 <;> first
  | cases h1
  | (split at h1
     · simp at h1
       subst h1
       simpa [minimumMsg, maximumMsg] using isMissingErr_parm _
     · cases h1)

/-- Enum-constraint errors are not of the missing-parameter form. -/
lemma not_missing_enumConstraintErrors (val : ParameterValidation) (n : String) (v : JSValue) :
    ∀ e ∈ enumConstraintErrors val n v, isMissingErr e = false := by
  intro e he
  unfold enumConstraintErrors at he
  split at he
  · split at he
    · simp at he
      subst he
      simpa [enumMsg] using isMissingErr_parm _
    · cases he
  · cases he

/-- Constraint errors are not of the missing-parameter form. -/
lemma not_missing_constraintErrors (pd : ParameterDefinition) (n : String) (v : JSValue) :
    ∀ e ∈ constraintErrors pd n v, isMissingErr e = false := by
  intro e he
  unfold constraintErrors at he
  split at he
  · cases he
  · rcases List.mem_append.mp he with h1 | h1
    · rcases List.mem_append.mp h1 with h2 | h2
      · split at h2
        · exact not_missing_strConstraintErrors _ _ _ _ h2
        · cases h2
      · split at h2
        · exact not_missing_numConstraintErrors _ _ _ _ h2
        · cases h2
    · exact not_missing_enumConstraintErrors _ _ _ _ h1

/-- No error of the provided-argument loop is of the
missing-parameter form. -/
lemma not_missing_providedParamErrors (c : SemanTestCapability) (args : List (String × JSValue)) :
    ∀ e ∈ providedParamErrors c args, isMissingErr e = false := by
  induction args with
  | nil => intro e he; cases he
  | cons kv rest ih =>
    intro e he
    obtain ⟨n, v⟩ := kv
    unfold providedParamErrors at he
    rcases List.mem_append.mp he with h1 | h1
    · split at h1
      · cases h1
      · rcases List.mem_append.mp h1 with h2 | h2
        · exact not_missing_entryTypeErrors _ _ _ _ h2
        · exact not_missing_constraintErrors _ _ _ _ h2
    · exact ih e h1

/-- C1: for every capability and every argument mapping,
`validateParameters` emits exactly one error of the form
`Required parameter '<name>' is missing` for each parameter definition
marked required whose name is absent from the argument mapping (the
errors of that form are exactly one `missingMsg` per such definition, in
declaration order), and when at least one required parameter is missing
the result has `valid = false`. -/
theorem validateParameters_missing_required (c : SemanTestCapability)
    (args : List (String × JSValue)) :
    ((c.validateParameters args).errors.filter isMissingErr
      = (c.getRequiredParameters.filter (fun p => ! hasKey args p.name)).map
          (fun p => missingMsg p.name))
    ∧ ((∃ p ∈ c.getRequiredParameters, hasKey args p.name = false) →
        (c.validateParameters args).valid = false) := by
  have herr : (c.validateParameters args).errors
      = requiredParamErrors c args ++ providedParamErrors c args := rfl
  constructor
  · rw [herr, List.filter_append]
    have h1 : (requiredParamErrors c args).filter isMissingErr
        = requiredParamErrors c args := by
      apply List.filter_eq_self.mpr
      intro e he
      unfold requiredParamErrors at he
      rcases List.mem_map.mp he with ⟨p, _, rfl⟩
      exact isMissingErr_missingMsg _
    have h2 : (providedParamErrors c args).filter isMissingErr = [] := by
      apply List.filter_eq_nil_iff.mpr
      intro e he
      simp [not_missing_providedParamErrors c args e he]
    rw [h1, h2, List.append_nil]
    rfl
  · rintro ⟨p, hp, hk⟩
    have hmem : missingMsg p.name ∈ requiredParamErrors c args := by
      unfold requiredParamErrors
      exact List.mem_map.mpr ⟨p, List.mem_filter.mpr ⟨hp, by simp [hk]⟩, rfl⟩
    have hmem2 : missingMsg p.name ∈ (c.validateParameters args).errors := by
      rw [herr]
      exact List.mem_append.mpr (Or.inl hmem)
    show ((c.validateParameters args).errors.length == 0) = false
    cases hE : (c.validateParameters args).errors with
    | nil => rw [hE] at hmem2; cases hmem2
    | cons a t => rfl

/-- Witness for C1: the login capability given an empty argument mapping
misses its required `user` parameter and is reported invalid. -/
theorem validateParameters_missing_required_witness :
    (loginCapability.validateParameters []).valid = false :=
  (validateParameters_missing_required loginCapability []).2
    ⟨{ name := "user", type := ParameterType.string, required := some true },
     by decide, by decide⟩

/-- A member of the error list forces `valid = false` in
`validateParameters` (the source computes `valid` as
`errors.length === 0`). -/
lemma vp_valid_false_of_mem {c : SemanTestCapability} {args : List (String × JSValue)}
    {e : String} (h : e ∈ (c.validateParameters args).errors) :
    (c.validateParameters args).valid = false := by
  show ((c.validateParameters args).errors.length == 0) = false
  cases hE : (c.validateParameters args).errors with
  | nil => rw [hE] at h; cases h
  | cons a t => rfl

/-- Any type-check error of an argument entry whose name resolves to a
parameter definition appears in the provided-argument error list. -/
lemma mem_providedParamErrors (c : SemanTestCapability) {args : List (String × JSValue)}
    {n : String} {v : JSValue} (hmem : (n, v) ∈ args) {pd : ParameterDefinition}
    (hpd : c.getParameter n = some pd) {e : String} (he : e ∈ entryTypeErrors pd n v) :
    e ∈ providedParamErrors c args := by
  induction args with
  | nil => cases hmem
  | cons kv rest ih =>
    obtain ⟨m, w⟩ := kv
    rcases List.mem_cons.mp hmem with heq | htail
    · obtain ⟨hn, hv⟩ := Prod.mk.injEq n v m w ▸ heq
      subst hn
      subst hv
      unfold providedParamErrors
      simp only [hpd]
      exact List.mem_append.mpr (Or.inl (List.mem_append.mpr (Or.inl he)))
    · unfold providedParamErrors
      exact List.mem_append.mpr (Or.inr (ih htail))

/-- C4: for every provided argument whose name matches a declared
parameter, any error produced by the type check of that entry (declared
`array` requires a sequence, any other declared type requires the exact
`typeof` kind, the message citing expected and actual kinds) appears in
the result of `validateParameters`, and the result is invalid. -/
theorem validateParameters_type_check (c : SemanTestCapability)
    (args : List (String × JSValue)) (n : String) (v : JSValue)
    (pd : ParameterDefinition) (e : String)
    (hmem : (n, v) ∈ args) (hpd : c.getParameter n = some pd)
    (he : e ∈ entryTypeErrors pd n v) :
    e ∈ (c.validateParameters args).errors
    ∧ (c.validateParameters args).valid = false := by
  have hprov := mem_providedParamErrors c hmem hpd he
  have herr : e ∈ (c.validateParameters args).errors :=
    List.mem_append.mpr (Or.inr hprov)
  exact ⟨herr, vp_valid_false_of_mem herr⟩

/-- Capability declaring one required `number` parameter `age`, used to
witness the type-check invariant. -/
def ageCapability : SemanTestCapability :=
  { id := "age-cap"
    name := "age"
    type := CapabilityType.form
    description := "Age form"
    selector := CapSelector.plain "#age"
    parameters := some [{ name := "age", type := ParameterType.number, required := some true }]
    createdAt := 0
    updatedAt := 0 }

/-- Witness for C4: supplying a string for the `number` parameter `age`
yields the expected-number-got-string error and an invalid result. -/
theorem validateParameters_type_check_witness :
    typeMsg "age" "number" "string"
        ∈ (ageCapability.validateParameters [("age", JSValue.str "x")]).errors
    ∧ (ageCapability.validateParameters [("age", JSValue.str "x")]).valid = false :=
  validateParameters_type_check ageCapability [("age", JSValue.str "x")] "age"
    (JSValue.str "x")
    { name := "age", type := ParameterType.number, required := some true }
    (typeMsg "age" "number" "string")
    (by decide) (by decide) (by decide)

/-- A parameter declared with type `file` type-checks to exactly one
mismatch error on every runtime value: `file` is not `array`, and no
`typeof` result equals the literal `file`. -/
lemma entryTypeErrors_file (pd : ParameterDefinition) (n : String) (v : JSValue)
    (hf : pd.type = ParameterType.file) :
    entryTypeErrors pd n v = [typeMsg n "file" v.typeofStr] := by
  cases v <;> simp [entryTypeErrors, hf, JSValue.typeofStr, JSValue.isArray, ParameterType.toStr]

/-- C9: a provided argument for a parameter declared with type `file`
always receives a type-mismatch error naming the expected kind `file`
and the value's actual runtime kind, and the result is invalid: the
declared type `file` is unsatisfiable at the `validateParameters`
interface. -/
theorem validateParameters_file_unsatisfiable (c : SemanTestCapability)
    (args : List (String × JSValue)) (n : String) (v : JSValue)
    (pd : ParameterDefinition)
    (hmem : (n, v) ∈ args) (hpd : c.getParameter n = some pd)
    (hf : pd.type = ParameterType.file) :
    typeMsg n "file" v.typeofStr ∈ (c.validateParameters args).errors
    ∧ (c.validateParameters args).valid = false := by
  have he : typeMsg n "file" v.typeofStr ∈ entryTypeErrors pd n v := by
    rw [entryTypeErrors_file pd n v hf]
    exact List.mem_singleton.mpr rfl
  have hprov := mem_providedParamErrors c hmem hpd he
  have herr : typeMsg n "file" v.typeofStr ∈ (c.validateParameters args).errors :=
    List.mem_append.mpr (Or.inr hprov)
  exact ⟨herr, vp_valid_false_of_mem herr⟩

/-- Capability declaring one parameter `upload` of type `file`, used to
witness the unsatisfiability of `file`-typed parameters. -/
def uploadCapability : SemanTestCapability :=
  { id := "upload-cap"
    name := "upload"
    type := CapabilityType.file
    description := "Upload form"
    selector := CapSelector.plain "#upload"
    parameters := some [{ name := "upload", type := ParameterType.file }]
    createdAt := 0
    updatedAt := 0 }

/-- Witness for C9: a string value provided for the `file` parameter
`upload` is rejected with the expected-file-got-string error. -/
theorem validateParameters_file_unsatisfiable_witness :
    typeMsg "upload" "file" (JSValue.str "a.txt").typeofStr
        ∈ (uploadCapability.validateParameters [("upload", JSValue.str "a.txt")]).errors
    ∧ (uploadCapability.validateParameters [("upload", JSValue.str "a.txt")]).valid = false :=
  validateParameters_file_unsatisfiable uploadCapability
    [("upload", JSValue.str "a.txt")] "upload" (JSValue.str "a.txt")
    { name := "upload", type := ParameterType.file }
    (by decide) (by decide) rfl

/-- Capability whose single string parameter carries the degenerate
constraints `minLength: 0`, `maxLength: 0` and the empty pattern, all of
which are falsy in JavaScript and hence skipped by the truthiness
guards. -/
def truthyGuardCapability : SemanTestCapability :=
  { id := "tg-cap"
    name := "tg"
    type := CapabilityType.form
    description := "Truthiness guards"
    selector := CapSelector.plain "#t"
    parameters := some
      [{ name := "p", type := ParameterType.string, required := some true,
         validation := some { minLength := some 0, maxLength := some 0, patt := some "" } }]
    createdAt := 0
    updatedAt := 0 }

/-- Capability whose single number parameter carries the bounds
`minimum: 0` and `maximum: 0`, which are guarded by an explicit
`!== undefined` test and hence enforced. -/
def zeroBoundCapability : SemanTestCapability :=
  { id := "zb-cap"
    name := "zb"
    type := CapabilityType.form
    description := "Zero bounds"
    selector := CapSelector.plain "#z"
    parameters := some
      [{ name := "q", type := ParameterType.number,
         validation := some { minimum := some 0, maximum := some 0 } }]
    createdAt := 0
    updatedAt := 0 }

/-- C10: the string constraints `minLength`, `maxLength` and `pattern`
are applied only when truthy, so with `maxLength: 0` (and `minLength: 0`
and an empty pattern) every string value passes with no error at all;
by contrast the numeric bounds are guarded by `!== undefined`, so
`minimum: 0` and `maximum: 0` are enforced. -/
theorem validateParameters_truthiness_guards :
    (∀ s : String, truthyGuardCapability.validateParameters [("p", JSValue.str s)]
        = { valid := true, errors := [], warnings := [] })
    ∧ ((zeroBoundCapability.validateParameters [("q", JSValue.num (-1))]).valid = false
        ∧ minimumMsg "q" 0 ∈ (zeroBoundCapability.validateParameters [("q", JSValue.num (-1))]).errors)
    ∧ ((zeroBoundCapability.validateParameters [("q", JSValue.num 1)]).valid = false
        ∧ maximumMsg "q" 0 ∈ (zeroBoundCapability.validateParameters [("q", JSValue.num 1)]).errors) := by
  refine ⟨fun s => rfl, ⟨by decide, by decide⟩, ⟨by decide, by decide⟩⟩

/-- A member of the error list forces `valid = false` in
`SemanTestContract.validate`. -/
lemma contract_valid_false_of_mem {c : SemanTestContract} {now : Int} {e : String}
    (h : e ∈ (c.validate now).errors) : (c.validate now).valid = false := by
  show ((c.validate now).errors.length == 0) = false
  cases hE : (c.validate now).errors with
  | nil => rw [hE] at h; cases h
  | cons a t => rfl

/-- A step referencing an absent capability contributes its dangling
error to the step loop. -/
lemma mem_stepRefErrors (c : SemanTestContract) (wname : String)
    {steps : List WorkflowStep} {step : WorkflowStep} (hs : step ∈ steps)
    (hmiss : c.hasCapability step.capability = false) :
    danglingMsg wname step.capability ∈ stepRefErrors c wname steps := by
  induction steps with
  | nil => cases hs
  | cons s rest ih =>
    rcases List.mem_cons.mp hs with heq | htail
    · subst heq
      unfold stepRefErrors
      simp [hmiss]
    · unfold stepRefErrors
      exact List.mem_append.mpr (Or.inr (ih htail))

/-- A workflow entry with a dangling step contributes its error to the
workflow loop. -/
lemma mem_workflowRefErrors (c : SemanTestContract)
    {ws : List (String × WorkflowDefinition)} {wname : String} {wf : WorkflowDefinition}
    (hw : (wname, wf) ∈ ws) {step : WorkflowStep} (hs : step ∈ wf.steps)
    (hmiss : c.hasCapability step.capability = false) :
    danglingMsg wname step.capability ∈ workflowRefErrors c ws := by
  induction ws with
  | nil => cases hw
  | cons kv rest ih =>
    obtain ⟨m, w⟩ := kv
    rcases List.mem_cons.mp hw with heq | htail
    · obtain ⟨hn, hv⟩ := Prod.mk.injEq wname wf m w ▸ heq
      subst hn
      subst hv
      unfold workflowRefErrors
      exact List.mem_append.mpr (Or.inl (mem_stepRefErrors c wname hs hmiss))
    · unfold workflowRefErrors
      exact List.mem_append.mpr (Or.inr (ih htail))

/-- C3: for every workflow entry and every step within it whose
capability name is absent from the capability map, `validate()` reports
an error naming both the workflow and the missing capability and the
result is invalid; in particular the login contract with its single
step repointed at the absent `logout` fails with exactly that one
error. -/
theorem contract_validate_dangling_reference (c : SemanTestContract) (now : Int)
    (wname : String) (wf : WorkflowDefinition) (step : WorkflowStep)
    (hw : (wname, wf) ∈ c.workflows.getD []) (hs : step ∈ wf.steps)
    (hmiss : c.hasCapability step.capability = false) :
    (danglingMsg wname step.capability ∈ (c.validate now).errors
      ∧ (c.validate now).valid = false)
    ∧ (logoutContract.validate 0).errors = [danglingMsg "signIn" "logout"] := by
  constructor
  · have hwf : danglingMsg wname step.capability ∈
        (match c.workflows with
         | some ws => workflowRefErrors c ws
         | none => []) := by
      cases hW : c.workflows with
      | none => rw [hW] at hw; cases hw
      | some ws =>
        rw [hW] at hw
        simp only [Option.getD_some] at hw
        exact mem_workflowRefErrors c hw hs hmiss
    have herr : danglingMsg wname step.capability ∈ (c.validate now).errors :=
      List.mem_append.mpr (Or.inr hwf)
    exact ⟨herr, contract_valid_false_of_mem herr⟩
  · decide

/-- Witness for C3: the dangling error of the `logout` scenario is
reported and invalidates the contract. -/
theorem contract_validate_dangling_reference_witness :
    danglingMsg "signIn" "logout" ∈ (logoutContract.validate 0).errors
    ∧ (logoutContract.validate 0).valid = false :=
  (contract_validate_dangling_reference logoutContract 0 "signIn" logoutWorkflow logoutStep
    (by decide) (by decide) (by decide)).1

/-- C8: the concrete login contract (id `c1`, version `1.0`, domain
`example.com`, title `Login`, one capability `login` with selector
`#submit` and a required string parameter `user`, one workflow `signIn`
stepping through `login`) validates cleanly; repointing the step at the
absent capability `logout` flips `valid` to `false` with exactly one
error. -/
theorem login_scenario_validates :
    (loginContract.validate 0).valid = true
    ∧ (logoutContract.validate 0).valid = false
    ∧ (logoutContract.validate 0).errors.length = 1 := by
  decide

/-- Counterexample to C2: a capability with absent optional fields is not
reconstructed field-for-field by `fromJSON ∘ toJSON`, because `toJSON`
serializes `parameters`, `conditions` and `examples` through accessors
that replace an absent value by `[]`. -/
theorem capability_roundtrip_not_identity :
    SemanTestCapability.fromJSON bareCapability.toJSON ≠ bareCapability := by
  decide

/-- C2 (amended): `fromJSON(toJSON(c))` reconstructs `c` exactly in every
field except that the optional `parameters`, `conditions` and `examples`
are normalized to present (possibly empty) lists; in particular the two
`Date` fields survive the ISO-8601 round trip exactly, and a capability
whose optional list fields are present is reconstructed identically. -/
theorem capability_roundtrip_normalized (c : SemanTestCapability) :
    SemanTestCapability.fromJSON c.toJSON
      = { c with parameters := some c.getParameters,
                 conditions := some c.getConditions,
                 examples := some c.getExamples } := rfl

/-- C6: each of the four with-style updates returns a new contract whose
named field is replaced, whose `updatedAt` is the supplied current time,
and whose every other field equals the corresponding field of the
receiver (the receiver itself is untouched, the model being pure). -/
theorem contract_with_ops_frame (c : SemanTestContract) (n : String)
    (cap : SemanTestCapability) (meta : ContractMetadata) (wf : WorkflowDefinition)
    (now : Int) :
    ((c.withCapability n cap now).capabilities = recordSet c.capabilities n cap
      ∧ (c.withCapability n cap now).updatedAt = now
      ∧ (c.withCapability n cap now).id = c.id
      ∧ (c.withCapability n cap now).version = c.version
      ∧ (c.withCapability n cap now).domain = c.domain
      ∧ (c.withCapability n cap now).title = c.title
      ∧ (c.withCapability n cap now).description = c.description
      ∧ (c.withCapability n cap now).workflows = c.workflows
      ∧ (c.withCapability n cap now).metadata = c.metadata
      ∧ (c.withCapability n cap now).createdAt = c.createdAt)
    ∧ ((c.withoutCapability n now).capabilities = recordDelete c.capabilities n
      ∧ (c.withoutCapability n now).updatedAt = now
      ∧ (c.withoutCapability n now).id = c.id
      ∧ (c.withoutCapability n now).version = c.version
      ∧ (c.withoutCapability n now).domain = c.domain
      ∧ (c.withoutCapability n now).title = c.title
      ∧ (c.withoutCapability n now).description = c.description
      ∧ (c.withoutCapability n now).workflows = c.workflows
      ∧ (c.withoutCapability n now).metadata = c.metadata
      ∧ (c.withoutCapability n now).createdAt = c.createdAt)
    ∧ ((c.withMetadata meta now).metadata = some meta
      ∧ (c.withMetadata meta now).updatedAt = now
      ∧ (c.withMetadata meta now).id = c.id
      ∧ (c.withMetadata meta now).version = c.version
      ∧ (c.withMetadata meta now).domain = c.domain
      ∧ (c.withMetadata meta now).title = c.title
      ∧ (c.withMetadata meta now).description = c.description
      ∧ (c.withMetadata meta now).capabilities = c.capabilities
      ∧ (c.withMetadata meta now).workflows = c.workflows
      ∧ (c.withMetadata meta now).createdAt = c.createdAt)
    ∧ ((c.withWorkflow n wf now).workflows = some (recordSet (c.workflows.getD []) n wf)
      ∧ (c.withWorkflow n wf now).updatedAt = now
      ∧ (c.withWorkflow n wf now).id = c.id
      ∧ (c.withWorkflow n wf now).version = c.version
      ∧ (c.withWorkflow n wf now).domain = c.domain
      ∧ (c.withWorkflow n wf now).title = c.title
      ∧ (c.withWorkflow n wf now).description = c.description
      ∧ (c.withWorkflow n wf now).capabilities = c.capabilities
      ∧ (c.withWorkflow n wf now).metadata = c.metadata
      ∧ (c.withWorkflow n wf now).createdAt = c.createdAt) :=
  ⟨⟨rfl, rfl, rfl, rfl, rfl, rfl, rfl, rfl, rfl, rfl⟩,
   ⟨rfl, rfl, rfl, rfl, rfl, rfl, rfl, rfl, rfl, rfl⟩,
   ⟨rfl, rfl, rfl, rfl, rfl, rfl, rfl, rfl, rfl, rfl⟩,
   ⟨rfl, rfl, rfl, rfl, rfl, rfl, rfl, rfl, rfl, rfl⟩⟩

/-- Overwriting the same key with the same value twice equals doing it
once: the second assignment finds the key present and maps it to the
value it already has. -/
lemma recordSet_idem {α : Type} (m : List (String × α)) (k : String) (v : α) :
    recordSet (recordSet m k v) k v = recordSet m k v := by
  cases h : m.any (fun kv => kv.fst == k) with
  | true =>
    have hm1 : recordSet m k v
        = m.map (fun kv => if kv.fst == k then (k, v) else kv) := by
      unfold recordSet
      rw [if_pos h]
    have hany : (m.map (fun kv => if kv.fst == k then (k, v) else kv)).any
        (fun kv => kv.fst == k) = true := by
      rw [List.any_map]
      have hcomp : ((fun kv : String × α => kv.fst == k) ∘
          (fun kv => if kv.fst == k then (k, v) else kv))
          = (fun kv : String × α => kv.fst == k) := by
        funext kv
        by_cases hkv : (kv.fst == k) = true <;> simp [Function.comp, hkv]
      rw [hcomp]
      exact h
    rw [hm1]
    unfold recordSet
    rw [if_pos hany, List.map_map]
    apply List.map_congr_left
    intro kv _
    by_cases hkv : (kv.fst == k) = true <;> simp [Function.comp, hkv]
  | false =>
    have hm1 : recordSet m k v = m ++ [(k, v)] := by
      unfold recordSet
      rw [if_neg (by simp [h])]
    have hany : ((m ++ [(k, v)]).any (fun kv => kv.fst == k)) = true := by
      simp [List.any_append, h]
    rw [hm1]
    unfold recordSet
    rw [if_pos hany, List.map_append]
    have hmap : m.map (fun kv => if kv.fst == k then (k, v) else kv) = m := by
      conv_rhs => rw [← List.map_id m]
      apply List.map_congr_left
      intro kv hkv
      have hx := List.any_eq_false.mp h kv hkv
      simp [hx]
    rw [hmap]
    simp

/-- C7: adding the same capability under the same name twice yields a
contract equal to adding it once in every field except `updatedAt`
(equality after normalizing `updatedAt`). -/
theorem withCapability_idempotent (c : SemanTestContract) (n : String)
    (cap : SemanTestCapability) (t1 t2 : Int) :
    { (c.withCapability n cap t1).withCapability n cap t2 with updatedAt := 0 }
      = { c.withCapability n cap t1 with updatedAt := 0 } := by
  cases c
  simp [SemanTestContract.withCapability, recordSet_idem]

/-- Reduction of `tryCatch` on a succeeding `Except` computation. -/
lemma exceptTryCatch_ok {α : Type} (x : α) (h : String → Except String α) :
    tryCatch (Except.ok x) h = Except.ok x := rfl

/-- Reduction of `tryCatch` on a throwing `Except` computation. -/
lemma exceptTryCatch_error {α : Type} (e : String) (h : String → Except String α) :
    tryCatch (Except.error e) h = h e := rfl

/-- The per-capability loop of `SemanTestContract.validate()` never
propagates an exception: its body is wrapped in try/catch. -/
lemma capabilityAggE_isOk (eng : RegexEngine) (now : Int)
    (caps : List (String × SemanTestCapability)) :
    ∃ es ws, capabilityAggE eng now caps = Except.ok (es, ws) := by
  induction caps with
  | nil => exact ⟨[], [], rfl⟩
  | cons kv rest ih =>
    obtain ⟨n, cap⟩ := kv
    obtain ⟨es2, ws2, ih2⟩ := ih
    cases hv : SemanTestCapability.validateE eng cap now with
    | ok v =>
      exact ⟨(if v.valid then [] else [capErrMsg n v.errors]) ++ es2,
             (if v.warnings.length > 0 then [capWarnMsg n v.warnings] else []) ++ ws2,
             by simp [capabilityAggE, hv, ih2, exceptTryCatch_ok,
                      Bind.bind, Except.bind, pure, Except.pure]⟩
    | error msg =>
      exact ⟨capCaughtMsg n msg :: es2, ws2,
             by simp [capabilityAggE, hv, ih2, exceptTryCatch_error,
                      Bind.bind, Except.bind, pure, Except.pure]⟩

/-- A capability whose validation throws contributes the caught message
to the error list of the per-capability loop. -/
lemma capabilityAggE_caught (eng : RegexEngine) (now : Int)
    {caps : List (String × SemanTestCapability)} {n : String}
    {cap : SemanTestCapability} {msg : String} {es ws : List String}
    (hmem : (n, cap) ∈ caps)
    (hv : SemanTestCapability.validateE eng cap now = Except.error msg)
    (hagg : capabilityAggE eng now caps = Except.ok (es, ws)) :
    capCaughtMsg n msg ∈ es := by
  induction caps generalizing es ws with
  | nil => cases hmem
  | cons kv rest ih =>
    obtain ⟨m, capm⟩ := kv
    obtain ⟨es2, ws2, hrest⟩ := capabilityAggE_isOk eng now rest
    rcases List.mem_cons.mp hmem with heq | htail
    · obtain ⟨hn, hc⟩ := Prod.mk.injEq n cap m capm ▸ heq
      subst hn
      subst hc
      have hcons : capabilityAggE eng now ((n, cap) :: rest)
          = Except.ok (capCaughtMsg n msg :: es2, ws2) := by
        simp [capabilityAggE, hv, hrest, exceptTryCatch_error,
              Bind.bind, Except.bind, pure, Except.pure]
      rw [hcons] at hagg
      simp only [Except.ok.injEq, Prod.mk.injEq] at hagg
      obtain ⟨h1, h2⟩ := hagg
      subst h1
      exact List.mem_cons_self _ _
    · cases hv2 : SemanTestCapability.validateE eng capm now with
      | ok v =>
        have hcons : capabilityAggE eng now ((m, capm) :: rest)
            = Except.ok ((if v.valid then [] else [capErrMsg m v.errors]) ++ es2,
                (if v.warnings.length > 0 then [capWarnMsg m v.warnings] else []) ++ ws2) := by
          simp [capabilityAggE, hv2, hrest, exceptTryCatch_ok,
                Bind.bind, Except.bind, pure, Except.pure]
        rw [hcons] at hagg
        simp only [Except.ok.injEq, Prod.mk.injEq] at hagg
        obtain ⟨h1, h2⟩ := hagg
        subst h1
        exact List.mem_append.mpr (Or.inr (ih htail hrest))
      | error msg2 =>
        have hcons : capabilityAggE eng now ((m, capm) :: rest)
            = Except.ok (capCaughtMsg m msg2 :: es2, ws2) := by
          simp [capabilityAggE, hv2, hrest, exceptTryCatch_error,
                Bind.bind, Except.bind, pure, Except.pure]
        rw [hcons] at hagg
        simp only [Except.ok.injEq, Prod.mk.injEq] at hagg
        obtain ⟨h1, h2⟩ := hagg
        subst h1
        exact List.mem_cons_of_mem _ (ih htail hrest)

/-- Counterexample to C5: an exception raised while checking one example
is NOT caught at the boundary of the per-example loop of
`SemanTestCapability.validate()` — there is no try/catch around that
loop, so `validate()` itself throws instead of folding the failure into
the capability's error list.  Concretely, on the V8-faithful engine,
validating the capability whose example exercises the pattern `(`
propagates the `SyntaxError`. -/
theorem capability_validate_example_exception_propagates :
    SemanTestCapability.validateE brokenEngine badExampleCapability 0
      = Except.error "Invalid regular expression: /(/: Unterminated group" := rfl

/-- C5 (amended): `SemanTestContract.validate()` always returns a
structured report — its per-capability loop catches any exception thrown
by `capability.validate()` and folds `Capability '<name>': <message>`
into the contract's error list, so one bad capability cannot abort
validation of the rest; `SemanTestCapability.validate()` itself installs
no handler around its example loop, so an exception raised while
checking an example propagates out of it (see the counterexample). -/
theorem contract_validateE_structured (eng : RegexEngine) (c : SemanTestContract) (now : Int) :
    (∃ r, SemanTestContract.validateE eng c now = Except.ok r)
    ∧ (∀ (n : String) (cap : SemanTestCapability) (msg : String) (r : ValidationResult),
        (n, cap) ∈ c.capabilities →
        SemanTestCapability.validateE eng cap now = Except.error msg →
        SemanTestContract.validateE eng c now = Except.ok r →
        capCaughtMsg n msg ∈ r.errors) := by
  obtain ⟨es, ws, hagg⟩ := capabilityAggE_isOk eng now c.capabilities
  have hval : SemanTestContract.validateE eng c now
      = Except.ok {
          valid := ((if c.id == "" then ["Contract ID is required"] else []) ++
            (if c.version == "" then ["Contract version is required"] else []) ++
            (if c.domain == "" then ["Contract domain is required"] else []) ++
            (if c.title == "" then ["Contract title is required"] else []) ++
            es ++
            (match c.workflows with
             | some ws' => workflowRefErrors c ws'
             | none => [])).length == 0
          errors := (if c.id == "" then ["Contract ID is required"] else []) ++
            (if c.version == "" then ["Contract version is required"] else []) ++
            (if c.domain == "" then ["Contract domain is required"] else []) ++
            (if c.title == "" then ["Contract title is required"] else []) ++
            es ++
            (match c.workflows with
             | some ws' => workflowRefErrors c ws'
             | none => [])
          warnings :=
            (if c.capabilities.length == 0 then ["Contract has no capabilities defined"] else []) ++ ws
          timestamp := now } := by
    simp [SemanTestContract.validateE, hagg, Bind.bind, Except.bind, pure, Except.pure]
  constructor
  · exact ⟨_, hval⟩
  · intro n cap msg r hmem hv hok
    have hmes := capabilityAggE_caught eng now hmem hv hagg
    rw [hval] at hok
    injection hok with h
    subst h
    exact List.mem_append.mpr (Or.inl (List.mem_append.mpr (Or.inr hmes)))

/-- Projection of a succeeding `Except` validation report (fallback
report for the impossible error case). -/
def okOrDefault (e : Except String ValidationResult) : ValidationResult :=
  match e with
  | Except.ok r => r
  | Except.error _ => { valid := false, errors := [], warnings := [], timestamp := 0 }

/-- Witness for C5 (amended): the contract holding the throwing
capability still validates to a structured report whose error list
contains the folded exception message. -/
theorem contract_validateE_structured_witness :
    capCaughtMsg "bad" "Invalid regular expression: /(/: Unterminated group"
      ∈ (okOrDefault (SemanTestContract.validateE brokenEngine badExampleContract 0)).errors :=
  (contract_validateE_structured brokenEngine badExampleContract 0).2
    "bad" badExampleCapability "Invalid regular expression: /(/: Unterminated group"
    (okOrDefault (SemanTestContract.validateE brokenEngine badExampleContract 0))
    (by decide) rfl rfl
